import Mathlib

/-!
Shallow embedding of the Rust event-driven microservices repository
(order service, catalog service, event bus) and proofs about it.

Machine integers (`u32`) are modelled as `Nat`, with an explicit
`% 2 ^ 32` at the one place where overflow can matter (the order-id
counter increment).  Rust `HashMap<u32, _>` stores are modelled as
association lists with the observable `insert` / `get` behaviour of a
hash map (insert replaces an existing binding for the key).
-/

/-- `f32` values (the `price` field) are only ever copied, never computed
with; we model them by their bit pattern. -/
abbrev F32 := Nat

/-- Lookup in an association list, the observable behaviour of
`HashMap::get`. -/
def getKV {β : Type} (m : List (Nat × β)) (k : Nat) : Option β :=
  (m.find? (fun p => p.1 = k)).map Prod.snd

/-- Insert into an association list, the observable behaviour of
`HashMap::insert`: any existing binding for the key is replaced. -/
def insertKV {β : Type} (m : List (Nat × β)) (k : Nat) (v : β) : List (Nat × β) :=
  m.filter (fun p => ¬ p.1 = k) ++ [(k, v)]

/-- In-place update of the value bound to a key, the observable behaviour
of mutating through `HashMap::get_mut`. -/
def updateKV {β : Type} (m : List (Nat × β)) (k : Nat) (f : β → β) : List (Nat × β) :=
  m.map (fun p => if p.1 = k then (p.1, f p.2) else p)

theorem find?_filter_self {β : Type} (m : List (Nat × β)) (k : Nat) :
    (m.filter (fun p => ¬ p.1 = k)).find? (fun p => p.1 = k) = none := by
  rw [List.find?_eq_none]
  intro x hx
  have hx' := List.of_mem_filter hx
  simpa using hx'

theorem find?_filter_other {β : Type} (m : List (Nat × β)) (k k' : Nat) (hne : k' ≠ k) :
    (m.filter (fun p => ¬ p.1 = k)).find? (fun p => p.1 = k') =
      m.find? (fun p => p.1 = k') := by
  induction m with
  | nil => rfl
  | cons p m ih =>
      rw [List.filter_cons]
      by_cases hp : p.1 = k
      · have hq : (decide ¬ p.1 = k) = false := by simp [hp]
        have hp' : ¬ p.1 = k' := by rw [hp]; exact fun hh => hne hh.symm
        rw [hq, if_neg (by simp), ih, List.find?_cons_of_neg _ (by simpa using hp')]
      · have hq : (decide ¬ p.1 = k) = true := by simp [hp]
        rw [hq, if_pos rfl]
        by_cases hp' : p.1 = k'
        · rw [List.find?_cons_of_pos _ (by simpa using hp'),
            List.find?_cons_of_pos _ (by simpa using hp')]
        · rw [List.find?_cons_of_neg _ (by simpa using hp'),
            List.find?_cons_of_neg _ (by simpa using hp'), ih]

theorem getKV_insertKV_self {β : Type} (m : List (Nat × β)) (k : Nat) (v : β) :
    getKV (insertKV m k v) k = some v := by
  rw [getKV, insertKV, List.find?_append, find?_filter_self,
    List.find?_cons_of_pos _ (by simp)]
  rfl

theorem getKV_insertKV_other {β : Type} (m : List (Nat × β)) (k k' : Nat) (v : β)
    (hne : k' ≠ k) : getKV (insertKV m k v) k' = getKV m k' := by
  rw [getKV, insertKV, List.find?_append, find?_filter_other m k k' hne, getKV]
  have h1 : ([((k : Nat), v)].find? (fun p => p.1 = k')) = none :=
    List.find?_cons_of_neg _ (by simpa using fun hh => hne hh.symm)
  rw [h1, Option.or_none]

/-! ## Order service: data model (`order_service/src/model/mod.rs`,
`order_service/src/db/order_db.rs`) -/

/-- `OrderRequest` from `order_service/src/model/mod.rs`. -/
structure OrderRequest where
  item_id : Nat
  name : String
  address : String
  quantity : Nat
deriving DecidableEq, Repr

/-- `Order` from `order_service/src/db/order_db.rs`.  Note the struct has
the fields `order_id`, `item_id`, `name`, `address` — and no quantity
field. -/
structure Order where
  order_id : Nat
  item_id : Nat
  name : String
  address : String
deriving DecidableEq, Repr

/-- `Order::new` (`order_db.rs`). -/
def Order.new (order_id : Nat) (order_request : OrderRequest) : Order :=
  { order_id := order_id
    item_id := order_request.item_id
    name := order_request.name
    address := order_request.address }

/-- `OrderDbClient` (`order_db.rs`): an id counter plus a
`HashMap<u32, Order>`. -/
structure OrderDbClient where
  latest_order_id : Nat
  orders : List (Nat × Order)
deriving DecidableEq, Repr

/-- `OrderDbClient::new` (`impl OrderDb for OrderDbClient`). -/
def OrderDbClient.new : OrderDbClient :=
  { latest_order_id := 0, orders := [] }

/-- `OrderDbClient::add_order`: increments the `u32` counter (hence the
`% 2 ^ 32`), builds the order and inserts it under the fresh id. -/
def OrderDbClient.add_order (db : OrderDbClient) (order_request : OrderRequest) :
    OrderDbClient :=
  { latest_order_id := (db.latest_order_id + 1) % 2 ^ 32
    orders := insertKV db.orders ((db.latest_order_id + 1) % 2 ^ 32)
      (Order.new ((db.latest_order_id + 1) % 2 ^ 32) order_request) }

/-- `OrderDbClient::get_order`. -/
def OrderDbClient.get_order (db : OrderDbClient) (order_id : Nat) : Option Order :=
  getKV db.orders order_id

/-! ## Event bus: envelope and payload (`event_bus/src/event.rs`,
`event_bus/src/events/order_placed_event.rs`) -/

/-- `OrderPlacedEvent` payload. -/
structure OrderPlacedEvent where
  item_id : Nat
  quantity : Nat
deriving DecidableEq, Repr

/-- `Event<T>` from `event_bus/src/event.rs`.  `SystemTime` is modelled
as a `Nat`; `Event::new` stamps the current time, which the embedding
threads in as an explicit `now` argument. -/
structure Event (T : Type) where
  event_type : String
  payload : T
  timestamp : Nat
  source : String
  correlation_id : Option String
  metadata : Option (List (String × String))
deriving DecidableEq, Repr

/-- `Event::new`: sets `timestamp` to the current time `now`. -/
def Event.new {T : Type} (event_type : String) (payload : T) (source : String)
    (correlation_id : Option String) (metadata : Option (List (String × String)))
    (now : Nat) : Event T :=
  { event_type := event_type
    payload := payload
    timestamp := now
    source := source
    correlation_id := correlation_id
    metadata := metadata }

/-- `MICROSERVICE_NAME` from `order_service/src/main.rs`. -/
def MICROSERVICE_NAME : String := "Order"

/-- Modelled from the spec: the file `event_bus/src/topic.rs` (declared as
`pub mod topic;`) is not among the sources; the spec says a single
well-known topic name carries order-placement notifications, and the
event type used with it is `"order_placed"`. -/
def topic.ORDER_PLACED : String := "order_placed"

/-! ## Order service: `OrderService::place_order`
(`order_service/src/services/order_service.rs`)

The network call to the catalog and the Kafka broadcast are external
effects; the embedding threads their outcomes in as explicit arguments
(`stock_result` for `catalog_network_service.get_stock`,
`broadcast_succeeds` for `event_bus.broadcast_event`) and records the
broadcast attempts the call makes, paired with their outcomes. -/

/-- `PlaceOrderError` (`order_service.rs`). -/
inductive PlaceOrderError where
  | ItemOutOfStock
  | CatalogNetworkError
deriving DecidableEq, Repr

/-- `NetworkErrorType` from `networking/src/lib.rs` (the wrapped
`reqwest::Error` payloads are external and carry no information the
embedded code inspects). -/
inductive NetworkErrorType where
  | Standard
  | RequestError
  | JsonError
deriving DecidableEq, Repr

/-- `NetworkError` from `networking/src/lib.rs`. -/
structure NetworkError where
  status_code : Option Nat
  error : NetworkErrorType
deriving DecidableEq, Repr

/-- One call to `EventBus::broadcast_event` made by `place_order`:
the event together with the topic and partition key it was sent with. -/
structure BroadcastAttempt where
  event : Event OrderPlacedEvent
  topic_name : String
  key : String
deriving DecidableEq, Repr

/-- `OrderService::place_order` (`order_service.rs`).  Returns the
caller-visible result, the order store after the call, and the list of
broadcast attempts paired with their outcome.  A failed broadcast is
logged and swallowed (`.map_err(...).ok()` in the source), so the
outcome never reaches the returned result. -/
def OrderService.place_order (db : OrderDbClient)
    (stock_result : Except NetworkError Nat) (broadcast_succeeds : Bool)
    (now : Nat) (order_request : OrderRequest) :
    Except PlaceOrderError Unit × OrderDbClient × List (BroadcastAttempt × Bool) :=
  match stock_result with
  | .error _ => (.error .CatalogNetworkError, db, [])
  | .ok stock =>
      if order_request.quantity > stock then
        (.error .ItemOutOfStock, db, [])
      else
        let db2 := db.add_order order_request
        let inner_event : OrderPlacedEvent :=
          { item_id := order_request.item_id, quantity := order_request.quantity }
        let event :=
          Event.new "order_placed" inner_event MICROSERVICE_NAME none none now
        (.ok (), db2,
          [({ event := event, topic_name := topic.ORDER_PLACED,
              key := toString order_request.item_id }, broadcast_succeeds)])

/-! ## Catalog service: data model and operations
(`catalog_service/src/db/catalog_db.rs`,
`catalog_service/src/services/catalog_service.rs`,
`catalog_service/src/api/mod.rs`) -/

/-- `ClothingItem` (`catalog_db.rs`). -/
structure ClothingItem where
  id : Nat
  name : String
  description : String
  sizes : List String
  price : F32
  stock : Nat
  images : List String
  video : String
deriving DecidableEq, Repr

/-- `CatalogDbClient` (`catalog_db.rs`): a `HashMap<u32, ClothingItem>`. -/
structure CatalogDbClient where
  items : List (Nat × ClothingItem)
deriving DecidableEq, Repr

/-- `CatalogDbClient::get_item`. -/
def CatalogDbClient.get_item (db : CatalogDbClient) (id : Nat) : Option ClothingItem :=
  getKV db.items id

/-- `CatalogDbClient::get_mut_item` resolves the same lookup as
`get_item`; the mutation through the returned handle is modelled at the
call site with `updateKV`. -/
def CatalogDbClient.get_mut_item (db : CatalogDbClient) (id : Nat) : Option ClothingItem :=
  getKV db.items id

/-- `CatalogDbClient::add_item`. -/
def CatalogDbClient.add_item (db : CatalogDbClient) (item : ClothingItem) : CatalogDbClient :=
  { items := insertKV db.items item.id item }

/-- `CatalogDbClient::get_catalog`: all stored items. -/
def CatalogDbClient.get_catalog (db : CatalogDbClient) : List ClothingItem :=
  db.items.map Prod.snd

/-- `ClothingItemDTO` (`catalog_service.rs`): the client-facing view of a
`ClothingItem`; it has no stock field. -/
structure ClothingItemDTO where
  id : Nat
  name : String
  description : String
  sizes : List String
  price : F32
  images : List String
  video : String
deriving DecidableEq, Repr

/-- `impl From<&ClothingItem> for ClothingItemDTO` (`catalog_service.rs`). -/
def ClothingItemDTO.from (item : ClothingItem) : ClothingItemDTO :=
  { id := item.id
    name := item.name
    description := item.description
    sizes := item.sizes
    price := item.price
    images := item.images
    video := item.video }

/-- `CatalogService::get_items` (`catalog_service.rs`): the catalog
filtered to items with positive stock, as DTOs. -/
def CatalogService.get_items (db : CatalogDbClient) : List ClothingItemDTO :=
  ((CatalogDbClient.get_catalog db).filter (fun item => item.stock > 0)).map
    ClothingItemDTO.from

/-- The `GET /catalog` handler `get_catalog` (`catalog_service/src/api/mod.rs`):
an empty filtered list is replaced by a human-readable message. -/
def get_catalog (db : CatalogDbClient) : String ⊕ List ClothingItemDTO :=
  let items := CatalogService.get_items db
  if items.isEmpty then Sum.inl "We are out of stock on everything, sorry!"
  else Sum.inr items

/-- The body of the `order_placed` callback inside
`CatalogService::start_event_listeners` (`catalog_service.rs`), for one
received event: look the item up; if absent do nothing; if the event's
quantity exceeds the current stock, leave the store unchanged and log a
reconciliation error (the returned `Bool`); otherwise write back the
decremented stock.  Returns the store after the event and whether a
reconciliation error was logged. -/
def CatalogService.handle_order_placed (db : CatalogDbClient)
    (event : Event OrderPlacedEvent) : CatalogDbClient × Bool :=
  match CatalogDbClient.get_mut_item db event.payload.item_id with
  | none => (db, false)
  | some item =>
      if event.payload.quantity > item.stock then (db, true)
      else
        ({ items := updateKV db.items event.payload.item_id
            (fun it => { it with stock := item.stock - event.payload.quantity }) },
          false)

/-- The listener loop of `CatalogService::start_event_listeners` run over
a list of received events: threads the store through
`handle_order_placed` and counts the reconciliation errors logged. -/
def CatalogService.start_event_listeners_run (db : CatalogDbClient)
    (events : List (Event OrderPlacedEvent)) : CatalogDbClient × Nat :=
  events.foldl
    (fun s ev =>
      let r := CatalogService.handle_order_placed s.1 ev
      (r.1, s.2 + (if r.2 then 1 else 0)))
    (db, 0)

/-! ## Helper: a sequence of `add_order` calls -/

/-- Folding a list of requests through `OrderDbClient::add_order`
(each call happens under the coordinator's single mutex, so a run is a
sequence of atomic `add_order` steps). -/
def addOrders (db : OrderDbClient) (reqs : List OrderRequest) : OrderDbClient :=
  reqs.foldl OrderDbClient.add_order db

theorem addOrders_cons (db : OrderDbClient) (r : OrderRequest) (reqs : List OrderRequest) :
    addOrders db (r :: reqs) = addOrders (db.add_order r) reqs := rfl

/-- Full characterization of a run of `add_order` calls, as long as the
`u32` id counter does not wrap: the counter advances by the number of
calls, and each id in the fresh range maps to the order built from the
corresponding request while all other ids are untouched. -/
theorem addOrders_get (reqs : List OrderRequest) (db : OrderDbClient)
    (h : db.latest_order_id + reqs.length < 2 ^ 32) :
    (addOrders db reqs).latest_order_id = db.latest_order_id + reqs.length
    ∧ ∀ k : Nat,
        (addOrders db reqs).get_order k =
          if db.latest_order_id < k ∧ k ≤ db.latest_order_id + reqs.length then
            (reqs[k - (db.latest_order_id + 1)]?).map (Order.new k)
          else db.get_order k := by
  induction reqs generalizing db with
  | nil =>
      refine ⟨by simp [addOrders], ?_⟩
      intro k
      rw [if_neg (by simp only [List.length_nil]; omega)]
      simp [addOrders]
  | cons r reqs ih =>
      have hlen : (r :: reqs).length = reqs.length + 1 := List.length_cons r reqs
      rw [hlen] at h
      have hlt : db.latest_order_id + 1 < 2 ^ 32 := by omega
      have hL1 : (db.latest_order_id + 1) % 2 ^ 32 = db.latest_order_id + 1 :=
        Nat.mod_eq_of_lt hlt
      have hdb' : (db.add_order r).latest_order_id = db.latest_order_id + 1 := by
        simp only [OrderDbClient.add_order, hL1]
      obtain ⟨ha, hb⟩ := ih (db.add_order r) (by rw [hdb']; omega)
      rw [hdb'] at ha hb
      constructor
      · rw [addOrders_cons, ha, hlen]; omega
      · intro k
        rw [addOrders_cons, hb k, hlen]
        by_cases hk1 : db.latest_order_id + 1 < k ∧ k ≤ db.latest_order_id + 1 + reqs.length
        · rw [if_pos hk1, if_pos (by omega)]
          have hidx : k - (db.latest_order_id + 1) = (k - (db.latest_order_id + 1 + 1)) + 1 := by
            omega
          rw [hidx, List.getElem?_cons_succ]
        · by_cases hk2 : k = db.latest_order_id + 1
          · rw [if_neg hk1, if_pos (by omega)]
            subst hk2
            have hget : (db.add_order r).get_order (db.latest_order_id + 1) =
                some (Order.new (db.latest_order_id + 1) r) := by
              simp only [OrderDbClient.add_order, OrderDbClient.get_order, hL1]
              exact getKV_insertKV_self _ _ _
            rw [hget]
            simp
          · rw [if_neg hk1, if_neg (by omega)]
            simp only [OrderDbClient.add_order, OrderDbClient.get_order, hL1]
            exact getKV_insertKV_other _ _ _ _ (by omega)

theorem keys_nodup_insertKV {β : Type} (m : List (Nat × β)) (k : Nat) (v : β)
    (h : (m.map Prod.fst).Nodup) : ((insertKV m k v).map Prod.fst).Nodup := by
  rw [insertKV, List.map_append]
  refine List.Nodup.append ?_ (List.nodup_singleton k) ?_
  · exact List.Nodup.sublist (List.Sublist.map _ (List.filter_sublist m)) h
  · intro a ha hb
    simp only [List.map_cons, List.map_nil, List.mem_singleton] at hb
    subst hb
    rw [List.mem_map] at ha
    obtain ⟨p, hp, hpa⟩ := ha
    have := List.of_mem_filter hp
    simp only [decide_eq_true_eq] at this
    exact this hpa

theorem keys_nodup_addOrders (reqs : List OrderRequest) (db : OrderDbClient)
    (h : (db.orders.map Prod.fst).Nodup) :
    ((addOrders db reqs).orders.map Prod.fst).Nodup := by
  induction reqs generalizing db with
  | nil => exact h
  | cons r reqs ih =>
      rw [addOrders_cons]
      exact ih _ (keys_nodup_insertKV _ _ _ h)

/-- C5: Order ids are unique and strictly increasing: starting from a
fresh `OrderDbClient`, after any sequence of `add_order` calls (fewer
than `2 ^ 32`, the range of the `u32` id counter) the counter equals the
number of calls, the `(i+1)`-st added order is stored under id `i + 1`
and carries that id — so no later insertion overwrote it — and no two
stored orders share an id. -/
theorem order_ids_unique_monotone (reqs : List OrderRequest)
    (h : reqs.length < 2 ^ 32) :
    (addOrders OrderDbClient.new reqs).latest_order_id = reqs.length
    ∧ (∀ i, ∀ hi : i < reqs.length,
        (addOrders OrderDbClient.new reqs).get_order (i + 1) =
          some (Order.new (i + 1) (reqs.get ⟨i, hi⟩)))
    ∧ ((addOrders OrderDbClient.new reqs).orders.map Prod.fst).Nodup := by
  obtain ⟨ha, hb⟩ := addOrders_get reqs OrderDbClient.new (by simpa [OrderDbClient.new] using h)
  refine ⟨by simpa [OrderDbClient.new] using ha, ?_, ?_⟩
  · intro i hi
    rw [hb (i + 1), if_pos (by simp [OrderDbClient.new]; omega)]
    simp [OrderDbClient.new, List.getElem?_eq_getElem hi]
  · exact keys_nodup_addOrders reqs OrderDbClient.new (by simp [OrderDbClient.new])

/-- Witness for C5 at a concrete two-request run. -/
theorem order_ids_unique_monotone_witness :
    (addOrders OrderDbClient.new
        [{ item_id := 1, name := "a", address := "b", quantity := 2 },
         { item_id := 2, name := "c", address := "d", quantity := 3 }]).latest_order_id = 2
    ∧ (∀ i, ∀ hi : i < ([{ item_id := 1, name := "a", address := "b", quantity := 2 },
         { item_id := 2, name := "c", address := "d", quantity := 3 }] : List OrderRequest).length,
        (addOrders OrderDbClient.new
          [{ item_id := 1, name := "a", address := "b", quantity := 2 },
           { item_id := 2, name := "c", address := "d", quantity := 3 }]).get_order (i + 1) =
          some (Order.new (i + 1)
            (([{ item_id := 1, name := "a", address := "b", quantity := 2 },
               { item_id := 2, name := "c", address := "d", quantity := 3 }] : List OrderRequest).get ⟨i, hi⟩)))
    ∧ ((addOrders OrderDbClient.new
        [{ item_id := 1, name := "a", address := "b", quantity := 2 },
         { item_id := 2, name := "c", address := "d", quantity := 3 }]).orders.map Prod.fst).Nodup :=
  order_ids_unique_monotone _ (by decide)

/-! ## Claims about `place_order` and the stored `Order` -/

/-- A concrete order request (quantity 5). -/
def rq_five : OrderRequest :=
  { item_id := 123, name := "James",
    address := "23 Bugs Bunny Street, London, E1 4AH", quantity := 5 }

/-- The same request with quantity 7 instead of 5. -/
def rq_seven : OrderRequest := { rq_five with quantity := 7 }

/-- C1 counterexample: two requests that differ only in their quantity
produce literally identical order stores — the stored `Order` has no
quantity field, so it cannot carry the request's quantity. -/
theorem stored_order_drops_quantity :
    OrderDbClient.new.add_order rq_five = OrderDbClient.new.add_order rq_seven
    ∧ rq_five.quantity ≠ rq_seven.quantity := by
  exact ⟨rfl, by decide⟩

/-- C1 (amended): the `Order` stored by `add_order` under the freshly
assigned id carries the request's `item_id`, `name` and `address` (the
request's quantity is not recorded in the stored `Order`, which has no
such field). -/
theorem add_order_stores_request_fields (db : OrderDbClient) (r : OrderRequest) :
    (db.add_order r).get_order ((db.latest_order_id + 1) % 2 ^ 32) =
      some { order_id := (db.latest_order_id + 1) % 2 ^ 32,
             item_id := r.item_id, name := r.name, address := r.address } := by
  simp only [OrderDbClient.add_order, OrderDbClient.get_order, Order.new]
  exact getKV_insertKV_self _ _ _

/-- C2: when the requested quantity strictly exceeds the stock returned
by the catalog query, `place_order` returns `ItemOutOfStock`, the order
store is returned exactly as it was, and no broadcast is attempted. -/
theorem place_order_out_of_stock (db : OrderDbClient) (stock : Nat)
    (broadcast_succeeds : Bool) (now : Nat) (r : OrderRequest)
    (h : stock < r.quantity) :
    OrderService.place_order db (.ok stock) broadcast_succeeds now r =
      (.error .ItemOutOfStock, db, []) := by
  simp [OrderService.place_order, h]

/-- Witness for C2: stock 3, requested quantity 5. -/
theorem place_order_out_of_stock_witness :
    (3 : Nat) < rq_five.quantity
    ∧ OrderService.place_order OrderDbClient.new (.ok 3) true 0 rq_five =
        (.error .ItemOutOfStock, OrderDbClient.new, []) :=
  ⟨by decide, place_order_out_of_stock _ _ _ _ _ (by decide)⟩

/-- C3: when the requested quantity is at most the stock returned by the
catalog query, `place_order` succeeds for both outcomes of the broadcast
(a publish failure is logged and swallowed, never surfaced): the result
is `Ok`, the order is added to the store, and exactly one broadcast of
the `order_placed` event was attempted with that outcome. -/
theorem place_order_swallows_publish_failure (db : OrderDbClient) (stock : Nat)
    (now : Nat) (r : OrderRequest) (h : r.quantity ≤ stock) :
    ∀ broadcast_succeeds : Bool,
      OrderService.place_order db (.ok stock) broadcast_succeeds now r =
        (.ok (), db.add_order r,
          [({ event := Event.new "order_placed"
                { item_id := r.item_id, quantity := r.quantity }
                MICROSERVICE_NAME none none now,
              topic_name := topic.ORDER_PLACED,
              key := toString r.item_id }, broadcast_succeeds)]) := by
  intro broadcast_succeeds
  simp [OrderService.place_order, Nat.not_lt.mpr h]

/-- Witness for C3: stock 10, quantity 5, broadcast fails — the call
still returns `Ok` and the order is stored. -/
theorem place_order_swallows_publish_failure_witness :
    rq_five.quantity ≤ 10
    ∧ OrderService.place_order OrderDbClient.new (.ok 10) false 0 rq_five =
        (.ok (), OrderDbClient.new.add_order rq_five,
          [({ event := Event.new "order_placed"
                { item_id := rq_five.item_id, quantity := rq_five.quantity }
                MICROSERVICE_NAME none none 0,
              topic_name := topic.ORDER_PLACED,
              key := toString rq_five.item_id }, false)]) :=
  ⟨by decide, place_order_swallows_publish_failure _ _ _ _ (by decide) false⟩

/-! ## Claims about the catalog service -/

theorem getKV_updateKV_self {β : Type} (m : List (Nat × β)) (k : Nat) (f : β → β) :
    getKV (updateKV m k f) k = (getKV m k).map f := by
  induction m with
  | nil => rfl
  | cons p m ih =>
      rw [updateKV, List.map_cons]
      by_cases hp : p.1 = k
      · rw [if_pos hp]
        have hh1 : List.find? (fun q => q.1 = k)
            ((p.1, f p.2) :: List.map (fun q => if q.1 = k then (q.1, f q.2) else q) m) =
            some (p.1, f p.2) :=
          List.find?_cons_of_pos _ (by simpa using hp)
        have hh2 : List.find? (fun q => q.1 = k) (p :: m) = some p :=
          List.find?_cons_of_pos _ (by simpa using hp)
        simp only [getKV, hh1, hh2, Option.map]
      · rw [if_neg hp]
        have hh1 : List.find? (fun q => q.1 = k)
            (p :: List.map (fun q => if q.1 = k then (q.1, f q.2) else q) m) =
            List.find? (fun q => q.1 = k)
              (List.map (fun q => if q.1 = k then (q.1, f q.2) else q) m) :=
          List.find?_cons_of_neg _ (by simpa using hp)
        have hh2 : List.find? (fun q => q.1 = k) (p :: m) =
            List.find? (fun q => q.1 = k) m :=
          List.find?_cons_of_neg _ (by simpa using hp)
        simp only [getKV] at ih ⊢
        rw [hh1, hh2]
        simpa [updateKV] using ih

/-- C4: the `order_placed` callback against an existing item: if the
event's quantity strictly exceeds the item's stock, the store is
returned unchanged and a reconciliation error is logged; otherwise no
error is logged and the item's stock becomes exactly `stock - quantity`
(which restores the old stock when the quantity is added back — the
decrement is exact, never an underflow, and reaches zero exactly when
the quantity equals the stock). -/
theorem catalog_stock_decrement (db : CatalogDbClient) (ev : Event OrderPlacedEvent)
    (item : ClothingItem) (h : db.get_item ev.payload.item_id = some item) :
    (item.stock < ev.payload.quantity →
        CatalogService.handle_order_placed db ev = (db, true))
    ∧ (ev.payload.quantity ≤ item.stock →
        (CatalogService.handle_order_placed db ev).2 = false
        ∧ (CatalogService.handle_order_placed db ev).1.get_item ev.payload.item_id =
            some { item with stock := item.stock - ev.payload.quantity }
        ∧ item.stock - ev.payload.quantity + ev.payload.quantity = item.stock) := by
  have hmut : CatalogDbClient.get_mut_item db ev.payload.item_id = some item := h
  constructor
  · intro hlt
    simp only [CatalogService.handle_order_placed, hmut]
    rw [if_pos hlt]
  · intro hle
    have hstore : CatalogService.handle_order_placed db ev =
        ({ items := updateKV db.items ev.payload.item_id
            (fun it => { it with stock := item.stock - ev.payload.quantity }) }, false) := by
      simp only [CatalogService.handle_order_placed, hmut]
      rw [if_neg (Nat.not_lt.mpr hle)]
    refine ⟨by rw [hstore], ?_, by omega⟩
    rw [hstore]
    show getKV (updateKV db.items ev.payload.item_id
        (fun it => { it with stock := item.stock - ev.payload.quantity }))
        ev.payload.item_id =
      some { item with stock := item.stock - ev.payload.quantity }
    rw [getKV_updateKV_self]
    have h' : getKV db.items ev.payload.item_id = some item := h
    rw [h']
    rfl

/-- A one-item catalog store used as a concrete instance. -/
def tshirt_small : ClothingItem :=
  { id := 1, name := "T-Shirt", description := "d", sizes := ["M"], price := 20,
    stock := 100, images := [], video := "v" }

/-- A catalog store holding only `tshirt_small` under key 1. -/
def catalog_one : CatalogDbClient := { items := [(1, tshirt_small)] }

/-- An `order_placed` event for item 1, quantity 40. -/
def ev_forty : Event OrderPlacedEvent :=
  Event.new "order_placed" { item_id := 1, quantity := 40 } "Order" none none 0

/-- Witness for C4: stock 100, event quantity 40 — no error, stock 60. -/
theorem catalog_stock_decrement_witness :
    (CatalogService.handle_order_placed catalog_one ev_forty).2 = false
    ∧ (CatalogService.handle_order_placed catalog_one ev_forty).1.get_item
        ev_forty.payload.item_id =
        some { tshirt_small with stock := tshirt_small.stock - ev_forty.payload.quantity }
    ∧ tshirt_small.stock - ev_forty.payload.quantity + ev_forty.payload.quantity =
        tshirt_small.stock :=
  (catalog_stock_decrement catalog_one ev_forty tshirt_small rfl).2 (by decide)

/-- C9: an `order_placed` event whose `item_id` has no record in the
catalog store is silently discarded: the callback returns the store
unchanged with no error logged, and the listener loop on `ev :: evs`
behaves exactly as on `evs` alone (the same final store and the same
error count — processing continues). -/
theorem missing_item_event_ignored (db : CatalogDbClient) (ev : Event OrderPlacedEvent)
    (evs : List (Event OrderPlacedEvent))
    (h : db.get_item ev.payload.item_id = none) :
    CatalogService.handle_order_placed db ev = (db, false)
    ∧ CatalogService.start_event_listeners_run db (ev :: evs) =
        CatalogService.start_event_listeners_run db evs := by
  have hmut : CatalogDbClient.get_mut_item db ev.payload.item_id = none := h
  have h1 : CatalogService.handle_order_placed db ev = (db, false) := by
    simp only [CatalogService.handle_order_placed, hmut]
  refine ⟨h1, ?_⟩
  simp [CatalogService.start_event_listeners_run, List.foldl_cons, h1]

/-- An `order_placed` event for an item id missing from `catalog_one`. -/
def ev_missing : Event OrderPlacedEvent :=
  Event.new "order_placed" { item_id := 999, quantity := 1 } "Order" none none 0

/-- Witness for C9: an event for the unknown item 999 against the
one-item store. -/
theorem missing_item_event_ignored_witness :
    CatalogService.handle_order_placed catalog_one ev_missing = (catalog_one, false)
    ∧ CatalogService.start_event_listeners_run catalog_one [ev_missing] =
        CatalogService.start_event_listeners_run catalog_one [] :=
  missing_item_event_ignored catalog_one ev_missing [] rfl

/-- C8: `GET /catalog` returns exactly the catalog items with strictly
positive stock, as DTOs, and the handler answers with the human-readable
out-of-stock message precisely when that filtered list is empty. -/
theorem get_catalog_contract (db : CatalogDbClient) :
    (∀ d, d ∈ CatalogService.get_items db ↔
        ∃ item, item ∈ CatalogDbClient.get_catalog db ∧ 0 < item.stock
          ∧ d = ClothingItemDTO.from item)
    ∧ (get_catalog db = Sum.inl "We are out of stock on everything, sorry!" ↔
        CatalogService.get_items db = []) := by
  constructor
  · intro d
    simp only [CatalogService.get_items, List.mem_map, List.mem_filter,
      decide_eq_true_eq]
    constructor
    · rintro ⟨item, ⟨hmem, hpos⟩, hd⟩
      exact ⟨item, hmem, hpos, hd.symm⟩
    · rintro ⟨item, hmem, hpos, hd⟩
      exact ⟨item, ⟨hmem, hpos⟩, hd.symm⟩
  · rw [get_catalog]
    by_cases hemp : (CatalogService.get_items db).isEmpty
    · rw [if_pos hemp]
      simp [List.isEmpty_iff.mp hemp]
    · rw [if_neg hemp]
      constructor
      · intro hcontra
        exact absurd hcontra (by simp)
      · intro hnil
        exact absurd (List.isEmpty_iff.mpr hnil) hemp

/-- Equality of every `ClothingItem` field except possibly `stock`. -/
def sameExceptStock (a b : ClothingItem) : Prop :=
  a.id = b.id ∧ a.name = b.name ∧ a.description = b.description
  ∧ a.sizes = b.sizes ∧ a.price = b.price ∧ a.images = b.images ∧ a.video = b.video

theorem from_congr (a b : ClothingItem) (h : sameExceptStock a b) :
    ClothingItemDTO.from a = ClothingItemDTO.from b := by
  obtain ⟨h1, h2, h3, h4, h5, h6, h7⟩ := h
  simp only [ClothingItemDTO.from, h1, h2, h3, h4, h5, h6, h7]

/-- C10: the catalog listing reveals nothing about stock beyond the
`stock > 0` filter: for two stores whose entries agree on everything but
the stock value, with both stocks positive, `get_items` returns the same
DTO list (and indeed `ClothingItemDTO` has no stock field at all). -/
theorem catalog_hides_stock (db1 db2 : CatalogDbClient)
    (h : List.Forall₂ (fun p q : Nat × ClothingItem =>
        p.1 = q.1 ∧ sameExceptStock p.2 q.2 ∧ 0 < p.2.stock ∧ 0 < q.2.stock)
      db1.items db2.items) :
    CatalogService.get_items db1 = CatalogService.get_items db2 := by
  obtain ⟨l1⟩ := db1
  obtain ⟨l2⟩ := db2
  simp only at h
  show ((l1.map Prod.snd).filter (fun item => item.stock > 0)).map
        ClothingItemDTO.from =
      ((l2.map Prod.snd).filter (fun item => item.stock > 0)).map
        ClothingItemDTO.from
  induction h with
  | nil => rfl
  | cons hr _ ih =>
      obtain ⟨-, hse, hp1, hp2⟩ := hr
      rw [List.map_cons, List.map_cons, List.filter_cons, List.filter_cons,
        if_pos (by simpa using hp1), if_pos (by simpa using hp2),
        List.map_cons, List.map_cons, from_congr _ _ hse, ih]

/-- A concrete item with stock 3. -/
def shirt_a : ClothingItem :=
  { id := 1, name := "n", description := "d", sizes := [], price := 1,
    stock := 3, images := [], video := "" }

/-- The same item with stock 9. -/
def shirt_b : ClothingItem := { shirt_a with stock := 9 }

/-- Witness for C10: one-item stores with stocks 3 and 9 list
identically. -/
theorem catalog_hides_stock_witness :
    CatalogService.get_items { items := [(1, shirt_a)] } =
      CatalogService.get_items { items := [(1, shirt_b)] } :=
  catalog_hides_stock _ _
    (List.Forall₂.cons
      ⟨rfl, ⟨rfl, rfl, rfl, rfl, rfl, rfl, rfl⟩, by decide, by decide⟩
      List.Forall₂.nil)

/-! ## Event bus listener pump (`event_bus/src/utilities/listeners.rs`)

`KafkaListener::new` spawns a pump task looping on `consumer.recv()`;
parsed messages are sent on a Tokio broadcast channel, and
`get_receiver` (`tx.subscribe()`) attaches new receivers at any time.
The embedding runs the pump over an explicit list of interleaved
interactions.  JSON parsing is done by the external `serde_json`; the
embedding carries its outcome in the input.  The bounded-buffer lag
policy of the broadcast channel is not modelled: receivers are assumed
to keep up. -/

/-- One iteration's input to the pump loop: `consumer.recv()` yields a
transport error, a message with no payload, a payload that fails
deserialization into `T`, or a payload parsing to `t`. -/
inductive KafkaMsg (T : Type) where
  | transportErr
  | noPayload
  | malformed
  | wellFormed (t : T)
deriving DecidableEq, Repr

/-- An interaction with a `KafkaListener`: a `get_receiver` call, or an
iteration of the pump on a received message. -/
inductive ListenerAction (T : Type) where
  | register
  | msg (m : KafkaMsg T)
deriving DecidableEq, Repr

/-- Observable state of a listener: per registered receiver (in
registration order) the messages it has received so far, and whether
the pump task is still running. -/
structure KafkaListenerState (T : Type) where
  receivers : List (List T)
  alive : Bool
deriving DecidableEq, Repr

/-- `KafkaListener::new` right after `broadcast::channel(buffer_size)`:
the initial receiver returned by `channel` is dropped (`let (tx, _)`),
so no receivers yet, and the spawned pump task is running. -/
def KafkaListener.init {T : Type} : KafkaListenerState T :=
  { receivers := [], alive := true }

/-- One iteration of the pump loop: a transport error is logged and the
loop continues; a message without payload is skipped; a deserialization
failure logs and then panics, killing the pump task; a parsed message is
sent on the broadcast channel — a copy to every current receiver —
unless the send fails (no receivers), in which case the loop breaks. -/
def KafkaListener.pumpStep {T : Type} (p : KafkaListenerState T) (m : KafkaMsg T) :
    KafkaListenerState T :=
  if p.alive then
    match m with
    | .transportErr => p
    | .noPayload => p
    | .malformed => { p with alive := false }
    | .wellFormed t =>
        if p.receivers.isEmpty then { p with alive := false }
        else { p with receivers := p.receivers.map (fun q => q ++ [t]) }
  else p

/-- `KafkaListener::get_receiver` (`tx.subscribe()`): a fresh receiver
that sees only messages broadcast from now on. -/
def KafkaListener.register {T : Type} (p : KafkaListenerState T) : KafkaListenerState T :=
  { p with receivers := p.receivers ++ [[]] }

def KafkaListener.step {T : Type} (p : KafkaListenerState T) (a : ListenerAction T) :
    KafkaListenerState T :=
  match a with
  | .register => KafkaListener.register p
  | .msg m => KafkaListener.pumpStep p m

def KafkaListener.run {T : Type} (p : KafkaListenerState T)
    (tr : List (ListenerAction T)) : KafkaListenerState T :=
  tr.foldl KafkaListener.step p

theorem KafkaListener.run_nil {T : Type} (p : KafkaListenerState T) :
    KafkaListener.run p [] = p := rfl

theorem KafkaListener.run_cons {T : Type} (p : KafkaListenerState T)
    (a : ListenerAction T) (tr : List (ListenerAction T)) :
    KafkaListener.run p (a :: tr) = KafkaListener.run (KafkaListener.step p a) tr := rfl

theorem KafkaListener.run_append {T : Type} (p : KafkaListenerState T)
    (u v : List (ListenerAction T)) :
    KafkaListener.run p (u ++ v) = KafkaListener.run (KafkaListener.run p u) v :=
  List.foldl_append _ _ u v

theorem KafkaListener.pumpStep_transportErr {T : Type} (p : KafkaListenerState T) :
    KafkaListener.pumpStep p .transportErr = p := by
  by_cases h : p.alive <;> simp [KafkaListener.pumpStep, h]

theorem KafkaListener.pumpStep_noPayload {T : Type} (p : KafkaListenerState T) :
    KafkaListener.pumpStep p .noPayload = p := by
  by_cases h : p.alive <;> simp [KafkaListener.pumpStep, h]

theorem KafkaListener.pumpStep_malformed {T : Type} (p : KafkaListenerState T) :
    KafkaListener.pumpStep p .malformed =
      { receivers := p.receivers, alive := false } := by
  obtain ⟨rcv, al⟩ := p
  cases al <;> simp [KafkaListener.pumpStep]

/-- Traces containing only pump-message actions (no `get_receiver`). -/
def msgsOnly {T : Type} (tr : List (ListenerAction T)) : Bool :=
  tr.all (fun a => match a with | .register => false | .msg _ => true)

theorem KafkaListener.run_dead {T : Type} (tr : List (ListenerAction T))
    (p : KafkaListenerState T) (hdead : p.alive = false)
    (hmsgs : msgsOnly tr = true) : KafkaListener.run p tr = p := by
  induction tr generalizing p with
  | nil => rfl
  | cons a tr ih =>
      cases a with
      | register => simp [msgsOnly] at hmsgs
      | msg m =>
          have hstep : KafkaListener.step p (.msg m) = p := by
            simp [KafkaListener.step, KafkaListener.pumpStep, hdead]
          rw [KafkaListener.run_cons, hstep]
          refine ih p hdead ?_
          simpa [msgsOnly] using hmsgs

/-- C6: the pump treats its two consume-error kinds differently.  A
transport-level receive error is logged and skipped: the run is the one
with that input removed.  A deserialization failure is fatal: afterwards
the pump is dead, and no matter what further messages arrive, every
receiver's received list stays exactly what it was when the malformed
payload arrived. -/
theorem listener_pump_error_handling {T : Type} (p : KafkaListenerState T)
    (xs ys : List (ListenerAction T)) (hys : msgsOnly ys = true) :
    KafkaListener.run p (xs ++ ListenerAction.msg KafkaMsg.transportErr :: ys) =
      KafkaListener.run p (xs ++ ys)
    ∧ KafkaListener.run p (xs ++ ListenerAction.msg KafkaMsg.malformed :: ys) =
        { receivers := (KafkaListener.run p xs).receivers, alive := false } := by
  constructor
  · rw [KafkaListener.run_append, KafkaListener.run_cons, KafkaListener.run_append]
    show KafkaListener.run
        (KafkaListener.pumpStep (KafkaListener.run p xs) .transportErr) ys = _
    rw [KafkaListener.pumpStep_transportErr]
  · rw [KafkaListener.run_append, KafkaListener.run_cons]
    show KafkaListener.run
        (KafkaListener.pumpStep (KafkaListener.run p xs) .malformed) ys = _
    rw [KafkaListener.pumpStep_malformed]
    exact KafkaListener.run_dead ys _ rfl hys

/-- Witness for C6 over `Nat` payloads: one registered receiver, one
delivered message, then the error in question, then one more parsed
message. -/
theorem listener_pump_error_handling_witness :
    msgsOnly (T := Nat) [ListenerAction.msg (KafkaMsg.wellFormed 2)] = true
    ∧ (KafkaListener.run KafkaListener.init
          ([ListenerAction.register, ListenerAction.msg (KafkaMsg.wellFormed 1)] ++
            ListenerAction.msg KafkaMsg.transportErr ::
              [ListenerAction.msg (KafkaMsg.wellFormed 2)]) =
        KafkaListener.run KafkaListener.init
          ([ListenerAction.register, ListenerAction.msg (KafkaMsg.wellFormed 1)] ++
            [ListenerAction.msg (KafkaMsg.wellFormed 2)])
      ∧ KafkaListener.run KafkaListener.init
          ([ListenerAction.register, ListenerAction.msg (KafkaMsg.wellFormed 1)] ++
            ListenerAction.msg KafkaMsg.malformed ::
              [ListenerAction.msg (KafkaMsg.wellFormed 2)]) =
          { receivers := (KafkaListener.run KafkaListener.init
              [ListenerAction.register,
                ListenerAction.msg (KafkaMsg.wellFormed 1)]).receivers,
            alive := false }) :=
  ⟨by decide,
    listener_pump_error_handling KafkaListener.init
      [ListenerAction.register, ListenerAction.msg (KafkaMsg.wellFormed 1)]
      [ListenerAction.msg (KafkaMsg.wellFormed 2)] (by decide)⟩

theorem KafkaListener.pumpStep_deliver {T : Type} (p : KafkaListenerState T) (t : T)
    (h1 : p.alive = true) (h2 : p.receivers.isEmpty = false) :
    KafkaListener.pumpStep p (.wellFormed t) =
      { p with receivers := p.receivers.map (fun q => q ++ [t]) } := by
  simp [KafkaListener.pumpStep, h1, h2]

theorem KafkaListener.pumpStep_stall {T : Type} (p : KafkaListenerState T) (t : T)
    (h : ¬ (p.alive = true ∧ p.receivers.isEmpty = false)) :
    KafkaListener.pumpStep p (.wellFormed t) =
      { receivers := p.receivers, alive := false } := by
  obtain ⟨rcv, al⟩ := p
  cases al
  · simp [KafkaListener.pumpStep]
  · have h2 : rcv.isEmpty = true := by simpa using h
    simp [KafkaListener.pumpStep, h2]

/-- The messages actually sent on the broadcast channel during a run:
a parsed message is delivered exactly when the pump is alive and the
send does not fail (at least one receiver). -/
def KafkaListener.deliveredRun {T : Type} :
    KafkaListenerState T → List (ListenerAction T) → List T
  | _, [] => []
  | p, .register :: tr => KafkaListener.deliveredRun (KafkaListener.register p) tr
  | p, .msg (.wellFormed t) :: tr =>
      if p.alive = true ∧ p.receivers.isEmpty = false then
        t :: KafkaListener.deliveredRun (KafkaListener.pumpStep p (.wellFormed t)) tr
      else KafkaListener.deliveredRun (KafkaListener.pumpStep p (.wellFormed t)) tr
  | p, .msg .transportErr :: tr =>
      KafkaListener.deliveredRun (KafkaListener.pumpStep p .transportErr) tr
  | p, .msg .noPayload :: tr =>
      KafkaListener.deliveredRun (KafkaListener.pumpStep p .noPayload) tr
  | p, .msg .malformed :: tr =>
      KafkaListener.deliveredRun (KafkaListener.pumpStep p .malformed) tr

/-- The final received lists of the receivers registered during a run,
in registration order: each one holds exactly what is delivered after
its registration. -/
def KafkaListener.newQueues {T : Type} :
    KafkaListenerState T → List (ListenerAction T) → List (List T)
  | _, [] => []
  | p, .register :: tr =>
      KafkaListener.deliveredRun (KafkaListener.register p) tr ::
        KafkaListener.newQueues (KafkaListener.register p) tr
  | p, .msg m :: tr => KafkaListener.newQueues (KafkaListener.pumpStep p m) tr

/-- Characterization of a listener run: every receiver present at the
start ends with its old list extended by exactly the delivered messages
of the run, in order, and the receivers registered during the run follow
in registration order. -/
theorem KafkaListener.run_receivers_char {T : Type} (tr : List (ListenerAction T))
    (p : KafkaListenerState T) :
    (KafkaListener.run p tr).receivers =
      p.receivers.map (fun q => q ++ KafkaListener.deliveredRun p tr)
        ++ KafkaListener.newQueues p tr := by
  induction tr generalizing p with
  | nil => simp [KafkaListener.run_nil, KafkaListener.deliveredRun, KafkaListener.newQueues]
  | cons a tr ih =>
      rw [KafkaListener.run_cons]
      cases a with
      | register =>
          show (KafkaListener.run (KafkaListener.register p) tr).receivers = _
          rw [ih]
          show (p.receivers ++ [[]]).map
              (fun q => q ++ KafkaListener.deliveredRun (KafkaListener.register p) tr)
              ++ KafkaListener.newQueues (KafkaListener.register p) tr = _
          rw [List.map_append]
          simp [KafkaListener.deliveredRun, KafkaListener.newQueues, List.append_assoc]
      | msg m =>
          show (KafkaListener.run (KafkaListener.pumpStep p m) tr).receivers = _
          rw [ih]
          cases m with
          | transportErr =>
              simp [KafkaListener.deliveredRun, KafkaListener.newQueues,
                KafkaListener.pumpStep_transportErr]
          | noPayload =>
              simp [KafkaListener.deliveredRun, KafkaListener.newQueues,
                KafkaListener.pumpStep_noPayload]
          | malformed =>
              simp [KafkaListener.deliveredRun, KafkaListener.newQueues,
                KafkaListener.pumpStep_malformed]
          | wellFormed t =>
              simp only [KafkaListener.deliveredRun, KafkaListener.newQueues]
              by_cases hc : p.alive = true ∧ p.receivers.isEmpty = false
              · rw [if_pos hc, KafkaListener.pumpStep_deliver p t hc.1 hc.2]
                simp [List.map_map, Function.comp, List.append_assoc]
              · rw [if_neg hc, KafkaListener.pumpStep_stall p t hc]

/-- The successfully parsed payloads in a trace, in arrival order. -/
def parsedMessages {T : Type} : List (ListenerAction T) → List T
  | [] => []
  | .msg (.wellFormed t) :: tr => t :: parsedMessages tr
  | .register :: tr => parsedMessages tr
  | .msg .transportErr :: tr => parsedMessages tr
  | .msg .noPayload :: tr => parsedMessages tr
  | .msg .malformed :: tr => parsedMessages tr

/-- Whether a trace contains a payload failing deserialization. -/
def containsMalformed {T : Type} (tr : List (ListenerAction T)) : Bool :=
  tr.any (fun a => match a with | .msg .malformed => true | _ => false)

/-- The number of `get_receiver` calls in a trace. -/
def countRegisters {T : Type} : List (ListenerAction T) → Nat
  | [] => 0
  | .register :: tr => countRegisters tr + 1
  | .msg _ :: tr => countRegisters tr

theorem KafkaListener.run_alive {T : Type} (tr : List (ListenerAction T))
    (p : KafkaListenerState T) (h1 : p.alive = true)
    (h2 : p.receivers.isEmpty = false) (h3 : containsMalformed tr = false) :
    (KafkaListener.run p tr).alive = true
    ∧ (KafkaListener.run p tr).receivers.isEmpty = false := by
  induction tr generalizing p with
  | nil => exact ⟨h1, h2⟩
  | cons a tr ih =>
      have h3' : containsMalformed tr = false := by
        simp only [containsMalformed, List.any_cons, Bool.or_eq_false_iff] at h3
        exact h3.2
      rw [KafkaListener.run_cons]
      cases a with
      | register =>
          refine ih (KafkaListener.register p) ?_ ?_ h3'
          · simpa [KafkaListener.step, KafkaListener.register] using h1
          · simp [KafkaListener.step, KafkaListener.register]
      | msg m =>
          cases m with
          | transportErr =>
              rw [show KafkaListener.step p (.msg .transportErr) = p from
                KafkaListener.pumpStep_transportErr p]
              exact ih p h1 h2 h3'
          | noPayload =>
              rw [show KafkaListener.step p (.msg .noPayload) = p from
                KafkaListener.pumpStep_noPayload p]
              exact ih p h1 h2 h3'
          | malformed => simp [containsMalformed] at h3
          | wellFormed t =>
              rw [show KafkaListener.step p (.msg (.wellFormed t)) =
                  { p with receivers := p.receivers.map (fun q => q ++ [t]) } from
                KafkaListener.pumpStep_deliver p t h1 h2]
              refine ih _ (by simpa using h1) ?_ h3'
              show (p.receivers.map (fun q => q ++ [t])).isEmpty = false
              cases hr : p.receivers with
              | nil => rw [hr] at h2; simp at h2
              | cons q qs => simp

theorem KafkaListener.deliveredRun_parsed {T : Type} (tr : List (ListenerAction T))
    (p : KafkaListenerState T) (h1 : p.alive = true)
    (h2 : p.receivers.isEmpty = false) (h3 : containsMalformed tr = false) :
    KafkaListener.deliveredRun p tr = parsedMessages tr := by
  induction tr generalizing p with
  | nil => rfl
  | cons a tr ih =>
      have h3' : containsMalformed tr = false := by
        simp only [containsMalformed, List.any_cons, Bool.or_eq_false_iff] at h3
        exact h3.2
      cases a with
      | register =>
          show KafkaListener.deliveredRun (KafkaListener.register p) tr = parsedMessages tr
          refine ih (KafkaListener.register p) ?_ ?_ h3'
          · simpa [KafkaListener.register] using h1
          · simp [KafkaListener.register]
      | msg m =>
          cases m with
          | transportErr =>
              show KafkaListener.deliveredRun (KafkaListener.pumpStep p .transportErr) tr =
                parsedMessages tr
              rw [KafkaListener.pumpStep_transportErr]
              exact ih p h1 h2 h3'
          | noPayload =>
              show KafkaListener.deliveredRun (KafkaListener.pumpStep p .noPayload) tr =
                parsedMessages tr
              rw [KafkaListener.pumpStep_noPayload]
              exact ih p h1 h2 h3'
          | malformed => simp [containsMalformed] at h3
          | wellFormed t =>
              show KafkaListener.deliveredRun p (.msg (.wellFormed t) :: tr) = _
              rw [KafkaListener.deliveredRun, if_pos ⟨h1, h2⟩,
                KafkaListener.pumpStep_deliver p t h1 h2]
              show t :: KafkaListener.deliveredRun _ tr = t :: parsedMessages tr
              congr 1
              refine ih _ (by simpa using h1) ?_ h3'
              show (p.receivers.map (fun q => q ++ [t])).isEmpty = false
              cases hr : p.receivers with
              | nil => rw [hr] at h2; simp at h2
              | cons q qs => simp

theorem KafkaListener.newQueues_at_register {T : Type} (u v : List (ListenerAction T))
    (p : KafkaListenerState T) :
    (KafkaListener.newQueues p (u ++ ListenerAction.register :: v))[countRegisters u]? =
      some (KafkaListener.deliveredRun
        (KafkaListener.register (KafkaListener.run p u)) v) := by
  induction u generalizing p with
  | nil =>
      show (KafkaListener.deliveredRun (KafkaListener.register p) v ::
          KafkaListener.newQueues (KafkaListener.register p) v)[(0 : Nat)]? = _
      rw [KafkaListener.run_nil]
      simp
  | cons a u ih =>
      cases a with
      | register =>
          show (KafkaListener.deliveredRun (KafkaListener.register p)
                (u ++ ListenerAction.register :: v) ::
              KafkaListener.newQueues (KafkaListener.register p)
                (u ++ ListenerAction.register :: v))[countRegisters u + 1]? = _
          rw [List.getElem?_cons_succ, ih (KafkaListener.register p),
            KafkaListener.run_cons]
          rfl
      | msg m =>
          show (KafkaListener.newQueues (KafkaListener.pumpStep p m)
              (u ++ ListenerAction.register :: v))[countRegisters u]? = _
          rw [ih (KafkaListener.pumpStep p m), KafkaListener.run_cons]
          rfl

/-- C7: fan-out, not load balancing.  Run a listener whose pump is alive
and which has N ≥ 1 registered receivers over any interaction trace with
no deserialization failure, containing a further `get_receiver` call
between prefix `u` and suffix `v`.  Then (i) every one of the N
receivers registered up front ends with its own copy of every
successfully parsed message of the whole trace appended in the pump's
delivery order, and (ii) the receiver registered between `u` and `v`
ends with exactly the parsed messages of `v` — it sees nothing broadcast
during `u` before its registration. -/
theorem listener_fanout_no_replay {T : Type} (p : KafkaListenerState T)
    (u v : List (ListenerAction T))
    (h1 : p.alive = true) (h2 : p.receivers.isEmpty = false)
    (h3 : containsMalformed (u ++ ListenerAction.register :: v) = false) :
    (KafkaListener.run p (u ++ ListenerAction.register :: v)).receivers.take
        p.receivers.length =
      p.receivers.map
        (fun q => q ++ parsedMessages (u ++ ListenerAction.register :: v))
    ∧ (KafkaListener.run p (u ++ ListenerAction.register :: v)).receivers[
        p.receivers.length + countRegisters u]? = some (parsedMessages v) := by
  have h3split : containsMalformed u = false ∧ containsMalformed v = false := by
    simp only [containsMalformed, List.any_append, List.any_cons,
      Bool.or_eq_false_iff] at h3
    exact ⟨h3.1, h3.2.2⟩
  have hchar := KafkaListener.run_receivers_char (u ++ ListenerAction.register :: v) p
  have hD := KafkaListener.deliveredRun_parsed (u ++ ListenerAction.register :: v) p h1 h2 h3
  constructor
  · rw [hchar, hD, List.take_left' (by rw [List.length_map])]
  · rw [hchar, List.getElem?_append_right (by rw [List.length_map]; omega)]
    rw [List.length_map, Nat.add_sub_cancel_left,
      KafkaListener.newQueues_at_register]
    congr 1
    refine KafkaListener.deliveredRun_parsed v _ ?_ ?_ h3split.2
    · have hrun := KafkaListener.run_alive u p h1 h2 h3split.1
      simpa [KafkaListener.register] using hrun.1
    · simp [KafkaListener.register]

/-- A listener state with one registered receiver and a live pump. -/
def pump_one : KafkaListenerState Nat := { receivers := [[]], alive := true }

/-- Witness for C7: one pre-registered receiver, message 5 delivered, a
second receiver registered, then message 7 delivered. -/
theorem listener_fanout_no_replay_witness :
    (KafkaListener.run pump_one
        ([ListenerAction.msg (KafkaMsg.wellFormed 5)] ++
          ListenerAction.register ::
            [ListenerAction.msg (KafkaMsg.wellFormed 7)])).receivers.take
        pump_one.receivers.length =
      pump_one.receivers.map (fun q => q ++ parsedMessages
        ([ListenerAction.msg (KafkaMsg.wellFormed 5)] ++
          ListenerAction.register ::
            [ListenerAction.msg (KafkaMsg.wellFormed 7)]))
    ∧ (KafkaListener.run pump_one
        ([ListenerAction.msg (KafkaMsg.wellFormed 5)] ++
          ListenerAction.register ::
            [ListenerAction.msg (KafkaMsg.wellFormed 7)])).receivers[
        pump_one.receivers.length +
          countRegisters [ListenerAction.msg (KafkaMsg.wellFormed 5)]]? =
      some (parsedMessages [ListenerAction.msg (KafkaMsg.wellFormed 7)]) :=
  listener_fanout_no_replay pump_one
    [ListenerAction.msg (KafkaMsg.wellFormed 5)]
    [ListenerAction.msg (KafkaMsg.wellFormed 7)] rfl rfl (by decide)
